import Mathlib

/-!
Verification development for the UniverseModel simulation (universe_model.py).

The Python source is shallowly embedded as follows.

Entities are identified by natural-number ids (the source uses uuid4 values;
only identity and equality of ids matter, so ids are Nat here).  An entity is
a record of its id, interaction history, local time, scale and property map;
an Observer is an entity whose optional reality_model field is present (the
source expresses this with a subclass and an isinstance check).

Python dicts (entity properties, interaction metadata, the networkx node and
edge dictionaries, collections.Counter) are modelled as association lists
with unique keys, updated in place in first-match position; this reproduces
dict insertion-order semantics.  Property and metadata values are a small
variant type: integers, strings, and the Python value None.

Floats (entity scales, the scale_distance function) are modelled as exact
rationals.  Timestamps and fresh uuids (interaction ids, group ids) are
injected as explicit parameters, since time.time() and uuid.uuid4() are
environment effects.

Interaction rules are functions from the entity roster to an optional list
of interactions, mirroring the Python rule signature where a rule returns a
list or None.  The random-driven rules (scale_biased_encounter_rule,
gravity_rule, fusion_rule, persistent_interaction_rule) are not needed by
the development and are not modelled; group_formation_rule, which is
deterministic up to fresh ids, is modelled in full.
-/

namespace UniverseModel

abbrev EntityId := Nat
abbrev InteractionId := Nat

/-- Property and metadata values: the source stores integers (mass, energy),
strings (group ids) and occasionally the Python value None in its dicts. -/
inductive Value where
  | int (n : Int)
  | str (s : String)
  | none
deriving DecidableEq, Repr

/-- A Python dict from string keys to values, as an association list with
unique keys in insertion order. -/
abbrev PropMap := List (String × Value)

/-- Dict lookup: d.get(k) returning None when absent. -/
def pget : PropMap → String → Option Value
  | [], _ => Option.none
  | p :: rest, k => if p.1 = k then some p.2 else pget rest k

/-- Dict lookup with default: d.get(k, dflt). -/
def pgetD (m : PropMap) (k : String) (d : Value) : Value :=
  (pget m k).getD d

/-- Dict lookup of an integer value with default, as in
d.get(k, dflt) used in integer arithmetic.  A present non-integer value
would raise a TypeError at runtime in the source; no state produced by the
program stores a non-integer under an arithmetic key, and no theorem below
exercises that case; this embedding returns the default there. -/
def getIntD (m : PropMap) (k : String) (d : Int) : Int :=
  match pget m k with
  | some (.int n) => n
  | _ => d

/-- Dict assignment d[k] = v: update in place if the key is present,
append otherwise. -/
def pset : PropMap → String → Value → PropMap
  | [], k, v => [(k, v)]
  | p :: rest, k, v => if p.1 = k then (k, v) :: rest else p :: pset rest k v

/-- An Interaction: id, timestamp, participant ids in order, type tag and
metadata.  Participants are entity ids; the source stores object references
and compares them by identity, which ids model. -/
structure Interaction where
  iid : InteractionId
  timestamp : Nat
  participants : List EntityId
  interaction_type : String
  metadata : PropMap
deriving DecidableEq, Repr

/-- The error raised by the Interaction constructor when it is given fewer
than two participants (the source raises ValueError; the spec names this
condition InvalidInteraction). -/
inductive InteractionError where
  | invalidInteraction
deriving DecidableEq, Repr

/-- The Interaction constructor: fails on fewer than two participants,
otherwise builds the interaction.  The fresh id and the timestamp are
injected (uuid4 and time.time in the source). -/
def Interaction.make (iid : InteractionId) (ts : Nat) (participants : List EntityId)
    (interaction_type : String) (metadata : PropMap) : Except InteractionError Interaction :=
  if participants.length < 2 then .error .invalidInteraction
  else .ok ⟨iid, ts, participants, interaction_type, metadata⟩

/-- Data stored at a node of the observer reality model: a snapshot copy of
the perceived entity's properties, scale and local time. -/
structure NodeData where
  properties : PropMap
  scale : ℚ
  local_time : Nat
deriving DecidableEq, Repr

/-- Data stored at an edge of the observer reality model: the perceived
interaction's type, timestamp and metadata. -/
structure EdgeData where
  etype : String
  timestamp : Nat
  metadata : PropMap
deriving DecidableEq, Repr

/-- The observer reality model, a networkx MultiDiGraph: nodes keyed by
entity id, edges keyed by (source id, target id, interaction id).  Both are
kept as insertion-ordered association lists with unique keys, which is how
networkx stores them (nested dicts). -/
structure RealityModel where
  nodes : List (EntityId × NodeData)
  edges : List ((EntityId × EntityId × InteractionId) × EdgeData)
deriving DecidableEq, Repr

/-- The empty reality model a fresh Observer starts with. -/
def RealityModel.empty : RealityModel := ⟨[], []⟩

/-- An entity: id, interaction history, local time, scale, properties.  The
reality_model field is present exactly when the entity is an Observer (the
source uses a subclass; the engine tests isinstance(entity, Observer)). -/
structure Entity where
  eid : EntityId
  interaction_history : List Interaction
  local_time : Nat
  scale : ℚ
  properties : PropMap
  reality_model : Option RealityModel
deriving DecidableEq, Repr

/-- Interaction.record_interaction: append the interaction to the entity's
history and advance its local time by one. -/
def Interaction.record_interaction (i : Interaction) (e : Entity) : Entity :=
  { e with
    interaction_history := e.interaction_history ++ [i]
    local_time := e.local_time + 1 }

/-- Interaction.apply_effects: mutate the entity's properties according to
the interaction type; unknown types leave the entity unchanged. -/
def Interaction.apply_effects (i : Interaction) (e : Entity) : Entity :=
  if i.interaction_type = "gravity" then
    let v : Value := .int (getIntD e.properties "mass" 0 + getIntD i.metadata "mass_change" 1)
    { e with properties := pset e.properties "mass" v }
  else if i.interaction_type = "fusion" then
    let v : Value := .int (getIntD e.properties "energy" 0 + getIntD i.metadata "energy_gain" 10)
    { e with properties := pset e.properties "energy" v }
  else if i.interaction_type = "group_formed" then
    { e with properties := pset e.properties "group_id" (pgetD i.metadata "group_id" .none) }
  else e

/-- Lookup of an entity by id in a roster, as the source's identity-based
membership and id-based searches. -/
def findEntity (es : List Entity) (pid : EntityId) : Option Entity :=
  es.find? (fun e => decide (e.eid = pid))

/-- Node lookup in the reality model. -/
def lookupNode (m : RealityModel) (nid : EntityId) : Option NodeData :=
  (m.nodes.find? (fun p => decide (p.1 = nid))).map (fun p => p.2)

/-- Node-dict upsert, from perceive_signal: a new node stores a snapshot of
properties, scale and local time; an existing node has its properties and
local time refreshed in place, its stored scale kept. -/
def upsertNodes : List (EntityId × NodeData) → Entity → List (EntityId × NodeData)
  | [], e => [(e.eid, ⟨e.properties, e.scale, e.local_time⟩)]
  | p :: rest, e =>
      if p.1 = e.eid then
        (p.1, { p.2 with properties := e.properties, local_time := e.local_time }) :: rest
      else p :: upsertNodes rest e

/-- The node upsert lifted to the whole model. -/
def upsertNode (m : RealityModel) (e : Entity) : RealityModel :=
  { m with nodes := upsertNodes m.nodes e }

/-- Edge lookup by (source, target, key). -/
def lookupEdge (m : RealityModel) (k : EntityId × EntityId × InteractionId) : Option EdgeData :=
  (m.edges.find? (fun p => decide (p.1 = k))).map (fun p => p.2)

/-- MultiDiGraph.add_edge with an explicit key: if the keyed edge exists its
data is replaced, otherwise the edge is appended. -/
def addEdges : List ((EntityId × EntityId × InteractionId) × EdgeData) →
    EntityId × EntityId × InteractionId → EdgeData →
    List ((EntityId × EntityId × InteractionId) × EdgeData)
  | [], k, d => [(k, d)]
  | p :: rest, k, d => if p.1 = k then (k, d) :: rest else p :: addEdges rest k d

/-- The edge insertion lifted to the whole model. -/
def add_edge (m : RealityModel) (u v : EntityId) (k : InteractionId) (d : EdgeData) :
    RealityModel :=
  { m with edges := addEdges m.edges (u, v, k) d }

/-- The participant loop of Observer.perceive_signal: upsert a node for
every participant, resolved to its current state in the roster (the source
reads the live entity objects referenced by the interaction). -/
def perceiveNodes (es : List Entity) (m : RealityModel) (ps : List EntityId) : RealityModel :=
  ps.foldl (fun acc pid =>
    match findEntity es pid with
    | some e => upsertNode acc e
    | Option.none => acc) m

/-- Observer.perceive_signal: ignore interactions the observer does not
participate in; otherwise upsert a node for every participant and, for
exactly-binary interactions, add one directed edge in each direction keyed
by the interaction id. -/
def perceive_signal (es : List Entity) (selfId : EntityId) (m : RealityModel)
    (i : Interaction) : RealityModel :=
  if selfId ∈ i.participants then
    let m1 := perceiveNodes es m i.participants
    match i.participants with
    | [a, b] =>
        let d : EdgeData := ⟨i.interaction_type, i.timestamp, i.metadata⟩
        add_edge (add_edge m1 a b i.iid d) b a i.iid d
    | _ => m1
  else m

/-- Counter increment c[k] += 1 over an insertion-ordered association list,
starting absent keys at one. -/
def bump {α : Type} [DecidableEq α] : List (α × Nat) → α → List (α × Nat)
  | [], k => [(k, 1)]
  | p :: rest, k => if p.1 = k then (p.1, p.2 + 1) :: rest else p :: bump rest k

/-- Group membership counts from Observer.find_patterns: every node whose
stored properties contain the key group_id contributes one to the count of
its stored group value (a stored None counts under the key None, as the
source tests key membership, not truthiness). -/
def groupCounts (m : RealityModel) : List (Value × Nat) :=
  m.nodes.foldl (fun acc p =>
    match pget p.2.properties "group_id" with
    | some v => bump acc v
    | Option.none => acc) []

/-- The pattern report of Observer.find_patterns, restricted to the fields
the development is about.  The source additionally computes
most_frequent_interactions, highly_connected_entities and
num_perceived_clusters from the same graph; those three independent fields
are not modelled here. -/
structure Patterns where
  num_perceived_entities : Nat
  num_perceived_relationships : Nat
  perceived_groups : List (Value × Nat)
deriving DecidableEq, Repr

/-- Observer.find_patterns: node count, edge count, and the group counts
restricted to groups with more than one perceived member. -/
def find_patterns (m : RealityModel) : Patterns :=
  { num_perceived_entities := m.nodes.length
    num_perceived_relationships := m.edges.length
    perceived_groups := (groupCounts m).filter (fun p => decide (1 < p.2)) }

/-- An interaction rule: the source passes the entity roster and accepts
either a list of interactions or None as the result. -/
abbrev Rule := List Entity → Option (List Interaction)

/-- The Universe: entity roster, rule registry, global interaction history. -/
structure Universe where
  entities : List Entity
  interaction_rules : List Rule
  interaction_history : List Interaction

/-- Universe.add_entity. -/
def Universe.add_entity (u : Universe) (e : Entity) : Universe :=
  { u with entities := u.entities ++ [e] }

/-- Universe.add_interaction_rule. -/
def Universe.add_interaction_rule (u : Universe) (r : Rule) : Universe :=
  { u with interaction_rules := u.interaction_rules ++ [r] }

/-- In-place update of every roster entry carrying the given id; ids are
unique in a roster (uuid4), so this is the source's mutation of the single
object with that id. -/
def updateEntity (es : List Entity) (pid : EntityId) (f : Entity → Entity) : List Entity :=
  es.map (fun e => if e.eid = pid then f e else e)

/-- The engine's isinstance(entity, Observer) branch of tick: an observer
perceives the interaction against the current roster state. -/
def perceiveIfObserver (es : List Entity) (i : Interaction) (e : Entity) : Entity :=
  match e.reality_model with
  | some m => { e with reality_model := some (perceive_signal es e.eid m i) }
  | Option.none => e

/-- One iteration of tick's inner loop: for one participant of one
interaction, record the interaction, apply its effects, and let the
participant perceive it if it is an observer. -/
def processParticipant (es : List Entity) (i : Interaction) (pid : EntityId) : List Entity :=
  let es1 := updateEntity es pid (fun e => i.apply_effects (i.record_interaction e))
  updateEntity es1 pid (perceiveIfObserver es1 i)

/-- Tick's processing of one interaction: its participants in order. -/
def processInteraction (es : List Entity) (i : Interaction) : List Entity :=
  i.participants.foldl (fun r pid => processParticipant r i pid) es

/-- Tick's rule phase: every rule applied to the same roster, the non-empty
outputs concatenated in rule order (a rule returning None contributes
nothing). -/
def collectInteractions (rules : List Rule) (es : List Entity) : List Interaction :=
  rules.foldl (fun acc r => acc ++ ((r es).getD [])) []

/-- Universe.tick: run every rule on the current roster, append the produced
interactions to the global history, then process every produced interaction
participant by participant; return the produced interactions. -/
def Universe.tick (u : Universe) : List Interaction × Universe :=
  let new_interactions := collectInteractions u.interaction_rules u.entities
  (new_interactions,
    { u with
      interaction_history := u.interaction_history ++ new_interactions
      entities := new_interactions.foldl processInteraction u.entities })

/-- scale_distance: cyclical distance between two scales. -/
def scale_distance (scale1 scale2 : ℚ) : ℚ :=
  min |scale1 - scale2| (1 - |scale1 - scale2|)

/-- The unordered-pair key used by group_formation_rule: the source builds a
frozenset of the two participant ids; a canonical ordered pair models it. -/
def pairKey (p q : EntityId) : EntityId × EntityId := (min p q, max p q)

/-- The pair counter of group_formation_rule: every occurrence of a binary
interaction in any entity's history bumps the count of its participant pair
(so an interaction recorded into both participants' histories contributes
two), keys in first-encounter order. -/
def interaction_counts (entities : List Entity) : List ((EntityId × EntityId) × Nat) :=
  entities.foldl (fun acc e =>
    e.interaction_history.foldl (fun acc2 i =>
      match i.participants with
      | [p, q] => bump acc2 (pairKey p q)
      | _ => acc2) acc) []

/-- The group id of an entity as group_formation_rule reads it:
properties.get of group_id, with an absent key and a stored None both
reading as None.  No execution stores a non-string, non-None group id. -/
def group_id_of (e : Entity) : Option String :=
  match pget e.properties "group_id" with
  | some (.str s) => some s
  | _ => Option.none

/-- The merge pick of group_formation_rule: the first truthy group id among
the two (an empty string is falsy in Python), else the fresh one. -/
def chooseGroupId (g1 g2 : Option String) (fresh : String) : String :=
  match g1 with
  | some s =>
      if s = "" then
        match g2 with
        | some t => if t = "" then fresh else t
        | Option.none => fresh
      else s
  | Option.none =>
      match g2 with
      | some t => if t = "" then fresh else t
      | Option.none => fresh

/-- group_formation_rule: count pair co-occurrences over all histories; for
every pair reaching the threshold whose two entities resolve in the roster,
emit a group_formed interaction unless the two already share one group id
(both without any id: a fresh id; ids differing, including exactly one id
present: the merged id).  Fresh interaction ids and fresh group ids are
injected as functions of the number of interactions already emitted, and
the shared timestamp as ts (uuid4 and time.time in the source).  The
source's unpacking of the frozenset key is hash-order dependent; this
embedding fixes the smaller id as e1, a pick the spec leaves free.  A
binary interaction whose two participants are the same entity would make
the source's two-element unpacking of the singleton frozenset raise; no
theorem below exercises such a history.  groupStep is the body of the
rule's emission loop, one qualifying-pair check. -/
def groupStep (freshIid : Nat → InteractionId) (freshGid : Nat → String) (ts : Nat)
    (entities : List Entity) (interaction_threshold : Nat)
    (acc : List Interaction) (pc : (EntityId × EntityId) × Nat) : List Interaction :=
  if interaction_threshold ≤ pc.2 then
    match findEntity entities pc.1.1, findEntity entities pc.1.2 with
    | some e1, some e2 =>
        if (group_id_of e1).isNone ∧ (group_id_of e2).isNone then
          acc ++ [⟨freshIid acc.length, ts, [e1.eid, e2.eid], "group_formed",
                   [("group_id", .str (freshGid acc.length))]⟩]
        else if group_id_of e1 ≠ group_id_of e2 then
          acc ++ [⟨freshIid acc.length, ts, [e1.eid, e2.eid], "group_formed",
                   [("group_id",
                     .str (chooseGroupId (group_id_of e1) (group_id_of e2)
                       (freshGid acc.length)))]⟩]
        else acc
    | _, _ => acc
  else acc

/-- group_formation_rule: the pair-count scan followed by the emission loop
over the counted pairs in first-encounter order. -/
def group_formation_rule (freshIid : Nat → InteractionId) (freshGid : Nat → String)
    (ts : Nat) (entities : List Entity) (interaction_threshold : Nat) : List Interaction :=
  (interaction_counts entities).foldl
    (groupStep freshIid freshGid ts entities interaction_threshold) []

/-- The interactions appended to the history of the entity with the given id
by one tick that produced the given interactions: each interaction once per
occurrence of the id among its participants, in order. -/
def histDelta (ints : List Interaction) (eid : EntityId) : List Interaction :=
  ints.flatMap (fun i => List.replicate (i.participants.count eid) i)

/-- The local-time advance of the entity with the given id over one tick
that produced the given interactions. -/
def timeDelta (ints : List Interaction) (eid : EntityId) : Nat :=
  (ints.map (fun i => i.participants.count eid)).sum

/-- The observable part of an entity the tick bookkeeping theorem speaks
about: id, history and local time. -/
def proj3 (e : Entity) : EntityId × List Interaction × Nat :=
  (e.eid, e.interaction_history, e.local_time)

/-- The qualification test of one pair-count entry of group_formation_rule:
the count reaches the threshold, both entities resolve in the roster, and
the two do not already share one group id. -/
def qualifiesPair (es : List Entity) (thr : Nat) (pc : (EntityId × EntityId) × Nat) : Bool :=
  decide (thr ≤ pc.2) &&
    match findEntity es pc.1.1, findEntity es pc.1.2 with
    | some e1, some e2 =>
        !(decide (group_id_of e1 = group_id_of e2) && (group_id_of e1).isSome)
    | _, _ => false

/-- A concrete binary interaction between entities 1 and 2, as one tick of
the engine records it into both participants' histories. -/
def iAB : Interaction := ⟨50, 0, [1, 2], "persistent_bond", []⟩

/-- Entity 1 after the engine recorded iAB once. -/
def entA : Entity := ⟨1, [iAB], 1, 0, [], Option.none⟩

/-- Entity 2 after the engine recorded iAB once. -/
def entB : Entity := ⟨2, [iAB], 1, 0, [], Option.none⟩

/-- Two concrete binary interactions between entities 3 and 4. -/
def jCD1 : Interaction := ⟨70, 0, [3, 4], "generic", []⟩

/-- The second concrete binary interaction between entities 3 and 4. -/
def jCD2 : Interaction := ⟨71, 0, [3, 4], "generic", []⟩

/-- Entity 3 after the engine recorded two co-interactions with entity 4. -/
def entC : Entity := ⟨3, [jCD1, jCD2], 2, 0, [], Option.none⟩

/-- Entity 4 after the engine recorded two co-interactions with entity 3. -/
def entD : Entity := ⟨4, [jCD1, jCD2], 2, 0, [], Option.none⟩

/-- The group_formation_rule output on the two-entity roster entC, entD with
the default threshold 2 and explicit fresh ids. -/
def groupRunCD : List Interaction :=
  group_formation_rule (fun k => 80 + k) (fun _ => "gNew") 0 [entC, entD] 2

/-- An observer entity with id 0 and an empty reality model. -/
def obsO : Entity := ⟨0, [], 0, 0, [], some RealityModel.empty⟩

/-- Perceived entity 1 of the find_patterns scenario, in group g1. -/
def oe1 : Entity := ⟨1, [], 0, 0, [("group_id", .str "g1")], Option.none⟩

/-- Perceived entity 2 of the find_patterns scenario, in group g1. -/
def oe2 : Entity := ⟨2, [], 0, 0, [("group_id", .str "g1")], Option.none⟩

/-- Perceived entity 3 of the find_patterns scenario, in group g2. -/
def oe3 : Entity := ⟨3, [], 0, 0, [("group_id", .str "g2")], Option.none⟩

/-- Perceived entity 4 of the find_patterns scenario, in group g2. -/
def oe4 : Entity := ⟨4, [], 0, 0, [("group_id", .str "g2")], Option.none⟩

/-- Perceived entity 5 of the find_patterns scenario, in no group. -/
def oe5 : Entity := ⟨5, [], 0, 0, [], Option.none⟩

/-- The roster of the find_patterns scenario: the observer and five distinct
other entities. -/
def rosterC7 : List Entity := [obsO, oe1, oe2, oe3, oe4, oe5]

/-- Six binary interactions, each including the observer (id 0), across the
five other entities of the scenario. -/
def intsC7 : List Interaction :=
  [⟨101, 0, [0, 1], "type_A", []⟩, ⟨102, 0, [0, 1], "type_A", []⟩,
   ⟨103, 0, [0, 2], "type_B", []⟩, ⟨104, 0, [0, 3], "type_A", []⟩,
   ⟨105, 0, [0, 4], "type_B", []⟩, ⟨106, 0, [0, 5], "type_B", []⟩]

/-- The observer reality model after perceiving the six interactions. -/
def modelC7 : RealityModel :=
  intsC7.foldl (fun m i => perceive_signal rosterC7 0 m i) RealityModel.empty

/-- A concrete gravity interaction between entities 1 and 2 used by the
frame and effect witnesses. -/
def gravInt : Interaction := ⟨7, 0, [1, 2], "gravity", [("mass_change", .int 2)]⟩

/-- A three-entity universe whose only rule always emits gravInt. -/
def univW : Universe :=
  ⟨[⟨1, [], 0, 0, [("mass", .int 5)], Option.none⟩,
    ⟨2, [], 0, 0, [], Option.none⟩,
    ⟨3, [], 0, 0, [], Option.none⟩],
   [fun _ => some [gravInt]],
   []⟩

lemma pget_pset_self (m : PropMap) (k : String) (v : Value) :
    pget (pset m k v) k = some v := by
  induction m with
  | nil => simp [pset, pget]
  | cons p rest ih =>
    by_cases h : p.1 = k
    · simp [pset, h, pget]
    · simp [pset, h, pget, ih]

lemma pget_pset_other (m : PropMap) (k k' : String) (v : Value) (h : k' ≠ k) :
    pget (pset m k v) k' = pget m k' := by
  induction m with
  | nil => simp [pset, pget, Ne.symm h]
  | cons p rest ih =>
    by_cases hp : p.1 = k
    · subst hp
      simp [pset, pget, Ne.symm h]
    · by_cases hp' : p.1 = k'
      · simp [pset, pget, hp, hp', h]
      · simp [pset, pget, hp, hp', ih]

lemma getIntD_pset_self (m : PropMap) (k : String) (n d : Int) :
    getIntD (pset m k (.int n)) k d = n := by
  simp [getIntD, pget_pset_self]

/-- C9: scale_distance(a, b) equals min(abs(a-b), 1-abs(a-b)); it is
symmetric, zero on equal scales, treats 0 and 1 as adjacent (distance 0,
and distance 1/5 between 1/10 and 9/10), and never exceeds 1/2 on scales
in the unit interval. -/
theorem scale_distance_spec :
    (∀ a b : ℚ, scale_distance a b = min |a - b| (1 - |a - b|))
    ∧ (∀ a b : ℚ, scale_distance a b = scale_distance b a)
    ∧ (∀ a : ℚ, scale_distance a a = 0)
    ∧ scale_distance 0 1 = 0
    ∧ scale_distance (1/10) (9/10) = 1/5
    ∧ (∀ a b : ℚ, 0 ≤ a → a ≤ 1 → 0 ≤ b → b ≤ 1 → scale_distance a b ≤ 1/2) := by
  refine ⟨fun a b => rfl, ?_, ?_, ?_, ?_, ?_⟩
  · intro a b
    simp [scale_distance, abs_sub_comm]
  · intro a
    simp [scale_distance]
  · norm_num [scale_distance]
  · rw [scale_distance]
    rw [abs_of_nonpos (by norm_num : (1:ℚ)/10 - 9/10 ≤ 0)]
    norm_num
  · intro a b _ _ _ _
    rcases le_or_lt |a - b| (1/2 : ℚ) with h | h
    · exact le_trans (min_le_left _ _) h
    · have h2 : 1 - |a - b| ≤ 1/2 := by linarith
      exact le_trans (min_le_right _ _) h2

/-- Witness for scale_distance_spec: the bound discharged at the concrete
scales 0 and 1/2. -/
theorem scale_distance_spec_witness :
    (0:ℚ) ≤ 0 ∧ (0:ℚ) ≤ 1 ∧ (0:ℚ) ≤ 1/2 ∧ (1:ℚ)/2 ≤ 1
      ∧ scale_distance 0 (1/2) ≤ 1/2 :=
  ⟨by norm_num, by norm_num, by norm_num, by norm_num,
   scale_distance_spec.2.2.2.2.2 0 (1/2) (by norm_num) (by norm_num)
     (by norm_num) (by norm_num)⟩

/-- C4: constructing an Interaction with fewer than two participants fails
with the invalid-interaction error, and that failure is local to the
construction call (the constructor is a total function into a result type,
so nothing beyond it fails); with two or more participants construction
succeeds and holds the given fields. -/
theorem interaction_make_spec :
    (∀ (iid ts : Nat) (ps : List EntityId) (ty : String) (md : PropMap),
      ps.length < 2 →
        Interaction.make iid ts ps ty md = .error .invalidInteraction)
    ∧ (∀ (iid ts : Nat) (ps : List EntityId) (ty : String) (md : PropMap),
      2 ≤ ps.length →
        Interaction.make iid ts ps ty md = .ok ⟨iid, ts, ps, ty, md⟩) := by
  constructor
  · intro iid ts ps ty md h
    simp [Interaction.make, h]
  · intro iid ts ps ty md h
    simp [Interaction.make, Nat.not_lt.mpr h]

/-- Witness for interaction_make_spec: one participant fails, two succeed. -/
theorem interaction_make_spec_witness :
    ([1].length < 2
      ∧ Interaction.make 9 0 [1] "generic" [] = .error .invalidInteraction)
    ∧ (2 ≤ [1, 2].length
      ∧ Interaction.make 9 0 [1, 2] "generic" [] = .ok ⟨9, 0, [1, 2], "generic", []⟩) :=
  ⟨⟨by decide, interaction_make_spec.1 9 0 [1] "generic" [] (by decide)⟩,
   ⟨by decide, interaction_make_spec.2 9 0 [1, 2] "generic" [] (by decide)⟩⟩

@[simp] lemma record_interaction_eid (i : Interaction) (e : Entity) :
    (i.record_interaction e).eid = e.eid := rfl

@[simp] lemma record_interaction_properties (i : Interaction) (e : Entity) :
    (i.record_interaction e).properties = e.properties := rfl

@[simp] lemma record_interaction_rm (i : Interaction) (e : Entity) :
    (i.record_interaction e).reality_model = e.reality_model := rfl

@[simp] lemma record_interaction_hist (i : Interaction) (e : Entity) :
    (i.record_interaction e).interaction_history = e.interaction_history ++ [i] := rfl

@[simp] lemma record_interaction_time (i : Interaction) (e : Entity) :
    (i.record_interaction e).local_time = e.local_time + 1 := rfl

@[simp] lemma apply_effects_eid (i : Interaction) (e : Entity) :
    (i.apply_effects e).eid = e.eid := by
  unfold Interaction.apply_effects
  split_ifs <;> rfl

@[simp] lemma apply_effects_hist (i : Interaction) (e : Entity) :
    (i.apply_effects e).interaction_history = e.interaction_history := by
  unfold Interaction.apply_effects
  split_ifs <;> rfl

@[simp] lemma apply_effects_time (i : Interaction) (e : Entity) :
    (i.apply_effects e).local_time = e.local_time := by
  unfold Interaction.apply_effects
  split_ifs <;> rfl

@[simp] lemma apply_effects_rm (i : Interaction) (e : Entity) :
    (i.apply_effects e).reality_model = e.reality_model := by
  unfold Interaction.apply_effects
  split_ifs <;> rfl

lemma apply_effects_record_properties (i : Interaction) (e : Entity) :
    (i.apply_effects (i.record_interaction e)).properties = (i.apply_effects e).properties := by
  unfold Interaction.apply_effects
  split_ifs <;> rfl

@[simp] lemma perceiveIfObserver_eid (es : List Entity) (i : Interaction) (e : Entity) :
    (perceiveIfObserver es i e).eid = e.eid := by
  cases h : e.reality_model <;> simp [perceiveIfObserver, h]

@[simp] lemma perceiveIfObserver_properties (es : List Entity) (i : Interaction) (e : Entity) :
    (perceiveIfObserver es i e).properties = e.properties := by
  cases h : e.reality_model <;> simp [perceiveIfObserver, h]

@[simp] lemma perceiveIfObserver_hist (es : List Entity) (i : Interaction) (e : Entity) :
    (perceiveIfObserver es i e).interaction_history = e.interaction_history := by
  cases h : e.reality_model <;> simp [perceiveIfObserver, h]

@[simp] lemma perceiveIfObserver_time (es : List Entity) (i : Interaction) (e : Entity) :
    (perceiveIfObserver es i e).local_time = e.local_time := by
  cases h : e.reality_model <;> simp [perceiveIfObserver, h]

lemma updateEntity_getElem? (es : List Entity) (pid : EntityId) (f : Entity → Entity)
    (k : Nat) :
    (updateEntity es pid f)[k]? = es[k]?.map (fun e => if e.eid = pid then f e else e) := by
  unfold updateEntity
  exact List.getElem?_map ..

lemma processParticipant_getElem?_proj (es : List Entity) (i : Interaction)
    (pid : EntityId) (k : Nat) :
    ((processParticipant es i pid)[k]?).map proj3
      = es[k]?.map (fun e => if e.eid = pid
          then (e.eid, e.interaction_history ++ [i], e.local_time + 1) else proj3 e) := by
  unfold processParticipant
  rw [updateEntity_getElem?, updateEntity_getElem?, Option.map_map, Option.map_map]
  cases h : es[k]? with
  | none => rfl
  | some e =>
    by_cases he : e.eid = pid
    · simp [Function.comp, he, proj3]
    · simp [Function.comp, he, proj3]

lemma processParticipant_getElem?_props (es : List Entity) (i : Interaction)
    (pid : EntityId) (k : Nat) :
    ((processParticipant es i pid)[k]?).map (fun e => (e.eid, e.properties))
      = es[k]?.map (fun e => if e.eid = pid
          then (e.eid, (i.apply_effects e).properties) else (e.eid, e.properties)) := by
  unfold processParticipant
  rw [updateEntity_getElem?, updateEntity_getElem?, Option.map_map, Option.map_map]
  cases h : es[k]? with
  | none => rfl
  | some e =>
    by_cases he : e.eid = pid
    · simp [Function.comp, he, apply_effects_record_properties]
    · simp [Function.comp, he]

lemma foldParticipants_getElem?_proj (ps : List EntityId) (es : List Entity)
    (i : Interaction) (k : Nat) :
    ((ps.foldl (fun r pid => processParticipant r i pid) es)[k]?).map proj3
      = es[k]?.map (fun e =>
          (e.eid, e.interaction_history ++ List.replicate (ps.count e.eid) i,
           e.local_time + ps.count e.eid)) := by
  induction ps generalizing es with
  | nil =>
    cases h : es[k]? <;> simp [h, proj3]
  | cons p ps ih =>
    rw [List.foldl_cons, ih]
    have hfact : (fun e : Entity =>
        (e.eid, e.interaction_history ++ List.replicate (ps.count e.eid) i,
         e.local_time + ps.count e.eid))
      = (fun t : EntityId × List Interaction × Nat =>
          (t.1, t.2.1 ++ List.replicate (ps.count t.1) i, t.2.2 + ps.count t.1)) ∘ proj3 := rfl
    rw [hfact, ← Option.map_map, processParticipant_getElem?_proj, Option.map_map]
    cases h : es[k]? with
    | none => rfl
    | some e =>
      by_cases he : e.eid = p
      · have hcount : (p :: ps).count e.eid = ps.count e.eid + 1 := by
          simp [List.count_cons, he]
        simp only [Option.map_some', Function.comp_apply, Option.some.injEq, Prod.mk.injEq,
          if_pos he, hcount, List.replicate_succ]
        refine ⟨trivial, by simp, by omega⟩
      · have hcount : (p :: ps).count e.eid = ps.count e.eid := by
          simp [List.count_cons, Ne.symm he]
        simp only [Option.map_some', Function.comp_apply, Option.some.injEq, Prod.mk.injEq,
          if_neg he, hcount, proj3]

lemma foldInteractions_getElem?_proj (ints : List Interaction) (es : List Entity)
    (k : Nat) :
    ((ints.foldl processInteraction es)[k]?).map proj3
      = es[k]?.map (fun e =>
          (e.eid, e.interaction_history ++ histDelta ints e.eid,
           e.local_time + timeDelta ints e.eid)) := by
  induction ints generalizing es with
  | nil =>
    cases h : es[k]? <;> simp [h, proj3, histDelta, timeDelta]
  | cons i ints ih =>
    rw [List.foldl_cons, ih]
    have hfact : (fun e : Entity =>
        (e.eid, e.interaction_history ++ histDelta ints e.eid,
         e.local_time + timeDelta ints e.eid))
      = (fun t : EntityId × List Interaction × Nat =>
          (t.1, t.2.1 ++ histDelta ints t.1, t.2.2 + timeDelta ints t.1)) ∘ proj3 := rfl
    rw [hfact, ← Option.map_map]
    show (((i.participants.foldl (fun r pid => processParticipant r i pid) es)[k]?).map
        proj3).map _ = _
    rw [foldParticipants_getElem?_proj, Option.map_map]
    cases h : es[k]? with
    | none => rfl
    | some e =>
      simp only [Option.map_some', Function.comp_apply, Option.some.injEq, Prod.mk.injEq,
        histDelta, timeDelta, List.flatMap_cons, List.map_cons, List.sum_cons]
      refine ⟨trivial, by rw [List.append_assoc], by omega⟩

lemma foldl_append_flatten {α β : Type} (f : α → List β) (l : List α) (acc : List β) :
    l.foldl (fun a r => a ++ f r) acc = acc ++ (l.map f).flatten := by
  induction l generalizing acc with
  | nil => simp
  | cons x l ih => simp [ih, List.append_assoc]

lemma collectInteractions_eq (rules : List Rule) (es : List Entity) :
    collectInteractions rules es = (rules.map (fun r => (r es).getD [])).flatten := by
  unfold collectInteractions
  rw [foldl_append_flatten]
  simp

/-- C1: one tick applies every registered rule exactly once, in registration
order, to the pre-tick roster (effects, recording and perception happen
only after the rule phase, on the snapshot the rules saw); it returns the
concatenation of the rule outputs in rule and internal order, with None and
empty outputs contributing nothing; it appends exactly that sequence to the
global interaction history; and every roster entry ends the tick with its
history extended by each returned interaction once per occurrence of the
entity among its participants, in order, and its local time advanced by
that same number of occurrences. -/
theorem universe_tick_spec (u : Universe) :
    (u.tick).1 = (u.interaction_rules.map (fun r => (r u.entities).getD [])).flatten
    ∧ (u.tick).2.interaction_history = u.interaction_history ++ (u.tick).1
    ∧ ∀ k : Nat,
        (((u.tick).2.entities)[k]?).map proj3
          = (u.entities[k]?).map (fun e =>
              (e.eid, e.interaction_history ++ histDelta (u.tick).1 e.eid,
               e.local_time + timeDelta (u.tick).1 e.eid)) := by
  refine ⟨collectInteractions_eq u.interaction_rules u.entities, rfl, fun k => ?_⟩
  exact foldInteractions_getElem?_proj (collectInteractions u.interaction_rules u.entities)
    u.entities k

lemma foldParticipants_untouched (ps : List EntityId) (es : List Entity) (i : Interaction)
    (k : Nat) (e : Entity) (he : es[k]? = some e) (hn : e.eid ∉ ps) :
    (ps.foldl (fun r pid => processParticipant r i pid) es)[k]? = some e := by
  induction ps generalizing es with
  | nil => simpa using he
  | cons p ps ih =>
    rw [List.foldl_cons]
    refine ih (processParticipant es i p) ?_ (fun hmem => hn (List.mem_cons_of_mem _ hmem))
    have hne : e.eid ≠ p := fun hh => hn (hh ▸ List.mem_cons_self _ _)
    unfold processParticipant
    rw [updateEntity_getElem?, updateEntity_getElem?, Option.map_map, he]
    simp [Function.comp, hne]

lemma foldInteractions_untouched (ints : List Interaction) (es : List Entity)
    (k : Nat) (e : Entity) (he : es[k]? = some e)
    (hn : ∀ i ∈ ints, e.eid ∉ i.participants) :
    (ints.foldl processInteraction es)[k]? = some e := by
  induction ints generalizing es with
  | nil => simpa using he
  | cons i ints ih =>
    rw [List.foldl_cons]
    refine ih (processInteraction es i) ?_ (fun j hj => hn j (List.mem_cons_of_mem _ hj))
    exact foldParticipants_untouched i.participants es i k e he
      (hn i (List.mem_cons_self _ _))

/-- C10: an entity that participates in no interaction produced by a tick is
left whole by that tick: the roster entry after the tick is the identical
entity record, so its properties, history, local time, scale and (for an
observer) reality model are all unchanged. -/
theorem tick_frame_spec (u : Universe) (k : Nat) (e : Entity)
    (he : u.entities[k]? = some e)
    (hnp : ∀ i ∈ (u.tick).1, e.eid ∉ i.participants) :
    ((u.tick).2.entities)[k]? = some e :=
  foldInteractions_untouched (collectInteractions u.interaction_rules u.entities)
    u.entities k e he hnp

/-- Witness for tick_frame_spec: in univW, entity 3 takes part in no
produced interaction and is untouched by the tick. -/
theorem tick_frame_spec_witness :
    (univW.entities[2]? = some ⟨3, [], 0, 0, [], Option.none⟩
      ∧ ∀ i ∈ (univW.tick).1, (3 : EntityId) ∉ i.participants)
    ∧ ((univW.tick).2.entities)[2]? = some ⟨3, [], 0, 0, [], Option.none⟩ :=
  ⟨⟨rfl, by decide⟩,
   tick_frame_spec univW 2 ⟨3, [], 0, 0, [], Option.none⟩ rfl (by decide)⟩

lemma apply_effects_properties_congr (i : Interaction) (e1 e2 : Entity)
    (h : e1.properties = e2.properties) :
    (i.apply_effects e1).properties = (i.apply_effects e2).properties := by
  unfold Interaction.apply_effects
  split_ifs <;> simp [h]

lemma gravity_mass_add (i : Interaction) (e : Entity)
    (hty : i.interaction_type = "gravity")
    (hmc : pget i.metadata "mass_change" = some (.int 2)) :
    getIntD (i.apply_effects e).properties "mass" 0
      = getIntD e.properties "mass" 0 + 2 := by
  have hmc2 : getIntD i.metadata "mass_change" 1 = 2 := by
    simp [getIntD, hmc]
  simp [Interaction.apply_effects, hty, getIntD_pset_self, hmc2]

lemma processInteraction_binary_props (es : List Entity) (i : Interaction)
    (a b : EntityId) (k : Nat) (e : Entity)
    (hp : i.participants = [a, b]) (hab : a ≠ b)
    (he : es[k]? = some e) (hor : e.eid = a ∨ e.eid = b) :
    ((processInteraction es i)[k]?).map (fun x => (x.eid, x.properties))
      = some (e.eid, (i.apply_effects e).properties) := by
  unfold processInteraction
  rw [hp]
  simp only [List.foldl_cons, List.foldl_nil]
  have h1 := processParticipant_getElem?_props es i a k
  rw [he] at h1
  cases hstep : (processParticipant es i a)[k]? with
  | none =>
    rw [hstep] at h1
    simp at h1
  | some e1 =>
    rw [hstep] at h1
    simp only [Option.map_some', Option.some.injEq] at h1
    have h2 := processParticipant_getElem?_props (processParticipant es i a) i b k
    rw [hstep] at h2
    simp only [Option.map_some'] at h2
    rcases hor with ha | hb
    · rw [if_pos ha] at h1
      have he1 : e1.eid = e.eid := by
        have := congrArg Prod.fst h1
        simpa using this
      have hp1 : e1.properties = (i.apply_effects e).properties := by
        have := congrArg Prod.snd h1
        simpa using this
      rw [h2, if_neg (by rw [he1, ha]; exact hab)]
      rw [he1, hp1]
    · have hna : ¬ e.eid = a := by
        rw [hb]; exact fun hh => hab hh.symm
      rw [if_neg hna] at h1
      have he1 : e1.eid = e.eid := by
        have := congrArg Prod.fst h1
        simpa using this
      have hp1 : e1.properties = e.properties := by
        have := congrArg Prod.snd h1
        simpa using this
      rw [h2, if_pos (by rw [he1, hb])]
      rw [he1, apply_effects_properties_congr i e1 e hp1]

/-- C3: apply_effects on a gravity interaction adds the metadata value
mass_change (default 1) to the mass property, an absent mass reading as
zero, and touches no other key; on a fusion interaction it likewise adds
energy_gain (default 10) to the energy property; on a group_formed
interaction it overwrites the group_id property with the metadata's group
id; any other interaction type leaves the entity completely unchanged; and
a gravity interaction with mass_change two between two distinct entities,
processed by the engine's per-interaction loop, raises the mass of each
roster slot holding a participant by exactly two. -/
theorem apply_effects_spec :
    (∀ (i : Interaction) (e : Entity), i.interaction_type = "gravity" →
      getIntD (i.apply_effects e).properties "mass" 0
          = getIntD e.properties "mass" 0 + getIntD i.metadata "mass_change" 1
        ∧ ∀ k : String, k ≠ "mass" →
            pget (i.apply_effects e).properties k = pget e.properties k)
    ∧ (∀ (i : Interaction) (e : Entity), i.interaction_type = "fusion" →
      getIntD (i.apply_effects e).properties "energy" 0
          = getIntD e.properties "energy" 0 + getIntD i.metadata "energy_gain" 10
        ∧ ∀ k : String, k ≠ "energy" →
            pget (i.apply_effects e).properties k = pget e.properties k)
    ∧ (∀ (i : Interaction) (e : Entity), i.interaction_type = "group_formed" →
      pget (i.apply_effects e).properties "group_id"
          = some (pgetD i.metadata "group_id" .none)
        ∧ ∀ k : String, k ≠ "group_id" →
            pget (i.apply_effects e).properties k = pget e.properties k)
    ∧ (∀ (i : Interaction) (e : Entity),
        i.interaction_type ≠ "gravity" → i.interaction_type ≠ "fusion" →
        i.interaction_type ≠ "group_formed" → i.apply_effects e = e)
    ∧ (∀ (es : List Entity) (i : Interaction) (a b : EntityId) (k : Nat) (e : Entity),
        i.interaction_type = "gravity" →
        pget i.metadata "mass_change" = some (.int 2) →
        i.participants = [a, b] → a ≠ b →
        es[k]? = some e → (e.eid = a ∨ e.eid = b) →
        ((processInteraction es i)[k]?).map (fun x => getIntD x.properties "mass" 0)
          = some (getIntD e.properties "mass" 0 + 2)) := by
  refine ⟨?_, ?_, ?_, ?_, ?_⟩
  · intro i e h
    constructor
    · simp [Interaction.apply_effects, h, getIntD_pset_self]
    · intro k hk
      simp only [Interaction.apply_effects, h]
      norm_num
      exact pget_pset_other _ _ _ _ hk
  · intro i e h
    have hne : ("fusion" : String) ≠ "gravity" := by decide
    constructor
    · simp [Interaction.apply_effects, h, hne, getIntD_pset_self]
    · intro k hk
      simp only [Interaction.apply_effects, h]
      norm_num [hne]
      exact pget_pset_other _ _ _ _ hk
  · intro i e h
    have hne1 : ("group_formed" : String) ≠ "gravity" := by decide
    have hne2 : ("group_formed" : String) ≠ "fusion" := by decide
    constructor
    · simp [Interaction.apply_effects, h, hne1, hne2, pget_pset_self]
    · intro k hk
      simp only [Interaction.apply_effects, h]
      norm_num [hne1, hne2]
      exact pget_pset_other _ _ _ _ hk
  · intro i e h1 h2 h3
    simp [Interaction.apply_effects, h1, h2, h3]
  · intro es i a b k e hty hmc hp hab he hor
    have hmain := processInteraction_binary_props es i a b k e hp hab he hor
    cases hfin : (processInteraction es i)[k]? with
    | none =>
      rw [hfin] at hmain
      simp at hmain
    | some x =>
      rw [hfin] at hmain
      simp only [Option.map_some', Option.some.injEq] at hmain
      have hx : x.properties = (i.apply_effects e).properties := by
        have := congrArg Prod.snd hmain
        simpa using this
      simp only [Option.map_some', Option.some.injEq, hx]
      exact gravity_mass_add i e hty hmc

/-- Witness for apply_effects_spec: every part discharged on concrete
interactions and entities, the engine part on the roster of univW. -/
theorem apply_effects_spec_witness :
    (gravInt.interaction_type = "gravity"
      ∧ getIntD (gravInt.apply_effects ⟨1, [], 0, 0, [("mass", .int 5)], Option.none⟩).properties
            "mass" 0
          = getIntD ([("mass", .int 5)] : PropMap) "mass" 0
              + getIntD gravInt.metadata "mass_change" 1)
    ∧ ((⟨8, 0, [1, 2], "fusion", []⟩ : Interaction).interaction_type = "fusion"
      ∧ getIntD ((⟨8, 0, [1, 2], "fusion", []⟩ : Interaction).apply_effects
            ⟨1, [], 0, 0, [], Option.none⟩).properties "energy" 0
          = getIntD ([] : PropMap) "energy" 0 + getIntD ([] : PropMap) "energy_gain" 10)
    ∧ (pget ((⟨9, 0, [1, 2], "group_formed", [("group_id", .str "g")]⟩ :
            Interaction).apply_effects ⟨1, [], 0, 0, [], Option.none⟩).properties "group_id"
          = some (pgetD [("group_id", .str "g")] "group_id" .none))
    ∧ ((⟨10, 0, [1, 2], "generic", []⟩ : Interaction).apply_effects
          ⟨1, [], 0, 0, [], Option.none⟩ = ⟨1, [], 0, 0, [], Option.none⟩)
    ∧ ((processInteraction univW.entities gravInt)[0]?).map
          (fun x => getIntD x.properties "mass" 0)
        = some (getIntD ([("mass", .int 5)] : PropMap) "mass" 0 + 2) :=
  ⟨⟨rfl, (apply_effects_spec.1 gravInt ⟨1, [], 0, 0, [("mass", .int 5)], Option.none⟩
      rfl).1⟩,
   ⟨rfl, (apply_effects_spec.2.1 ⟨8, 0, [1, 2], "fusion", []⟩
      ⟨1, [], 0, 0, [], Option.none⟩ rfl).1⟩,
   (apply_effects_spec.2.2.1 ⟨9, 0, [1, 2], "group_formed", [("group_id", .str "g")]⟩
      ⟨1, [], 0, 0, [], Option.none⟩ rfl).1,
   apply_effects_spec.2.2.2.1 ⟨10, 0, [1, 2], "generic", []⟩
      ⟨1, [], 0, 0, [], Option.none⟩ (by decide) (by decide) (by decide),
   apply_effects_spec.2.2.2.2 univW.entities gravInt 1 2 0
      ⟨1, [], 0, 0, [("mass", .int 5)], Option.none⟩ rfl rfl rfl (by decide) rfl
      (Or.inl rfl)⟩

lemma findEntity_eid (es : List Entity) (pid : EntityId) (e : Entity)
    (h : findEntity es pid = some e) : e.eid = pid := by
  have := List.find?_some h
  exact of_decide_eq_true this

@[simp] lemma upsertNode_edges (m : RealityModel) (e : Entity) :
    (upsertNode m e).edges = m.edges := rfl

@[simp] lemma add_edge_nodes (m : RealityModel) (u v : EntityId) (k : InteractionId)
    (d : EdgeData) : (add_edge m u v k d).nodes = m.nodes := rfl

lemma mem_upsertNodes_ids (l : List (EntityId × NodeData)) (e : Entity) (nid : EntityId)
    (h : nid ∈ (upsertNodes l e).map Prod.fst) :
    nid ∈ l.map Prod.fst ∨ nid = e.eid := by
  induction l with
  | nil =>
    simp [upsertNodes] at h
    exact Or.inr h
  | cons p rest ih =>
    by_cases hp : p.1 = e.eid
    · simp only [upsertNodes, if_pos hp, List.map_cons, List.mem_cons] at h
      rcases h with h | h
      · exact Or.inl (by simp [h])
      · exact Or.inl (by simp [h])
    · simp only [upsertNodes, if_neg hp, List.map_cons, List.mem_cons] at h
      rcases h with h | h
      · exact Or.inl (by simp [h])
      · rcases ih h with h2 | h2
        · exact Or.inl (by simp [h2])
        · exact Or.inr h2

lemma find?_map_upsertNodes (l : List (EntityId × NodeData)) (e : Entity) (nid : EntityId) :
    ((upsertNodes l e).find? (fun p => decide (p.1 = nid))).map (fun p => p.2)
      = if nid = e.eid then
          some (match (l.find? (fun p => decide (p.1 = e.eid))).map (fun p => p.2) with
                | some nd => ⟨e.properties, nd.scale, e.local_time⟩
                | Option.none => ⟨e.properties, e.scale, e.local_time⟩)
        else (l.find? (fun p => decide (p.1 = nid))).map (fun p => p.2) := by
  induction l with
  | nil =>
    by_cases h : nid = e.eid
    · subst h
      simp [upsertNodes, List.find?]
    · have h' : ¬ e.eid = nid := fun hh => h hh.symm
      simp [upsertNodes, List.find?, h, h']
  | cons p rest ih =>
    by_cases hp : p.1 = e.eid
    · by_cases h : nid = e.eid
      · subst h
        simp [upsertNodes, List.find?, hp]
      · have h' : ¬ e.eid = nid := fun hh => h hh.symm
        simp [upsertNodes, List.find?, hp, h, h']
    · by_cases hpn : p.1 = nid
      · have h : ¬ nid = e.eid := fun hh => hp (by rw [hpn, hh])
        simp [upsertNodes, List.find?, hp, hpn, h]
      · simp only [upsertNodes, if_neg hp, List.find?, hpn, decide_eq_true_eq, hp]
        simpa [List.find?, hpn, hp] using ih

lemma lookupNode_upsertNode (m : RealityModel) (e : Entity) (nid : EntityId) :
    lookupNode (upsertNode m e) nid
      = if nid = e.eid then
          some (match lookupNode m e.eid with
                | some nd => ⟨e.properties, nd.scale, e.local_time⟩
                | Option.none => ⟨e.properties, e.scale, e.local_time⟩)
        else lookupNode m nid :=
  find?_map_upsertNodes m.nodes e nid

lemma lookupNode_isSome_iff_mem (m : RealityModel) (nid : EntityId) :
    (lookupNode m nid).isSome ↔ nid ∈ m.nodes.map Prod.fst := by
  unfold lookupNode
  cases h : m.nodes.find? (fun p => decide (p.1 = nid)) with
  | none =>
    simp only [h, Option.map_none', Option.isSome_none, Bool.false_eq_true, false_iff]
    rw [List.find?_eq_none] at h
    intro hmem
    obtain ⟨p, hp, hfst⟩ := List.mem_map.mp hmem
    exact absurd (decide_eq_true (show p.1 = nid from hfst)) (h p hp)
  | some q =>
    have hmem := List.mem_of_find?_eq_some h
    have hq := List.find?_some h
    have hfst : q.1 = nid := by simpa using hq
    simp only [h, Option.map_some', Option.isSome_some, true_iff]
    exact List.mem_map.mpr ⟨q, hmem, hfst⟩

lemma perceiveNodes_edges (es : List Entity) (ps : List EntityId) (m : RealityModel) :
    (perceiveNodes es m ps).edges = m.edges := by
  induction ps generalizing m with
  | nil => rfl
  | cons p ps ih =>
    show (perceiveNodes es _ (p :: ps)).edges = m.edges
    unfold perceiveNodes
    rw [List.foldl_cons]
    cases h : findEntity es p with
    | none =>
      simp only [h]
      exact ih m
    | some e =>
      simp only [h]
      exact (ih (upsertNode m e)).trans rfl

lemma lookupNode_perceiveNodes_not_mem (es : List Entity) (ps : List EntityId)
    (m : RealityModel) (pid : EntityId) (h : pid ∉ ps) :
    lookupNode (perceiveNodes es m ps) pid = lookupNode m pid := by
  induction ps generalizing m with
  | nil => rfl
  | cons p ps ih =>
    have hne : pid ≠ p := fun hh => h (hh ▸ List.mem_cons_self _ _)
    have hps : pid ∉ ps := fun hh => h (List.mem_cons_of_mem _ hh)
    unfold perceiveNodes
    rw [List.foldl_cons]
    cases hf : findEntity es p with
    | none =>
      simp only [hf]
      exact ih m hps
    | some e =>
      simp only [hf]
      have : lookupNode (perceiveNodes es (upsertNode m e) ps) pid
          = lookupNode (upsertNode m e) pid := ih (upsertNode m e) hps
      rw [show (List.foldl _ (upsertNode m e) ps) = perceiveNodes es (upsertNode m e) ps
          from rfl, this, lookupNode_upsertNode,
        if_neg (show ¬ pid = e.eid from fun hh => hne (hh.trans (findEntity_eid es p e hf)))]

lemma lookupNode_perceiveNodes_mem (es : List Entity) (ps : List EntityId)
    (m : RealityModel) (pid : EntityId) (e : Entity)
    (hmem : pid ∈ ps) (he : findEntity es pid = some e) :
    lookupNode (perceiveNodes es m ps) pid
      = some (match lookupNode m pid with
              | some nd => ⟨e.properties, nd.scale, e.local_time⟩
              | Option.none => ⟨e.properties, e.scale, e.local_time⟩) := by
  induction ps generalizing m with
  | nil => simp at hmem
  | cons p ps ih =>
    by_cases hp : pid = p
    · subst hp
      have heid : e.eid = pid := findEntity_eid es pid e he
      have hstep : lookupNode (upsertNode m e) pid
          = some (match lookupNode m pid with
                  | some nd => ⟨e.properties, nd.scale, e.local_time⟩
                  | Option.none => ⟨e.properties, e.scale, e.local_time⟩) := by
        rw [lookupNode_upsertNode, heid, if_pos rfl]
      unfold perceiveNodes
      rw [List.foldl_cons]
      simp only [he]
      by_cases hps : pid ∈ ps
      · rw [show (List.foldl _ (upsertNode m e) ps) = perceiveNodes es (upsertNode m e) ps
            from rfl, ih (upsertNode m e) hps, hstep]
        cases hl : lookupNode m pid <;> simp
      · rw [show (List.foldl _ (upsertNode m e) ps) = perceiveNodes es (upsertNode m e) ps
            from rfl, lookupNode_perceiveNodes_not_mem es ps (upsertNode m e) pid hps, hstep]
    · have hps : pid ∈ ps := by
        rcases List.mem_cons.mp hmem with h1 | h1
        · exact absurd h1 hp
        · exact h1
      unfold perceiveNodes
      rw [List.foldl_cons]
      cases hf : findEntity es p with
      | none =>
        simp only [hf]
        exact ih m hps
      | some e2 =>
        simp only [hf]
        rw [show (List.foldl _ (upsertNode m e2) ps) = perceiveNodes es (upsertNode m e2) ps
            from rfl, ih (upsertNode m e2) hps, lookupNode_upsertNode,
          if_neg (show ¬ pid = e2.eid from fun hh => hp (hh.trans (findEntity_eid es p e2 hf)))]

lemma perceive_signal_not_participant (es : List Entity) (selfId : EntityId)
    (m : RealityModel) (i : Interaction) (h : selfId ∉ i.participants) :
    perceive_signal es selfId m i = m := by
  unfold perceive_signal
  rw [if_neg h]

lemma perceive_signal_nodes (es : List Entity) (selfId : EntityId) (m : RealityModel)
    (i : Interaction) (h : selfId ∈ i.participants) :
    (perceive_signal es selfId m i).nodes = (perceiveNodes es m i.participants).nodes := by
  unfold perceive_signal
  rw [if_pos h]
  split <;> rfl

lemma perceive_signal_lookupNode (es : List Entity) (selfId : EntityId) (m : RealityModel)
    (i : Interaction) (pid : EntityId) (h : selfId ∈ i.participants) :
    lookupNode (perceive_signal es selfId m i) pid
      = lookupNode (perceiveNodes es m i.participants) pid := by
  unfold lookupNode
  rw [perceive_signal_nodes es selfId m i h]

lemma perceive_signal_edges_binary (es : List Entity) (selfId : EntityId)
    (m : RealityModel) (i : Interaction) (a b : EntityId)
    (hp : i.participants = [a, b]) (hs : selfId ∈ i.participants) :
    (perceive_signal es selfId m i).edges
      = addEdges (addEdges m.edges (a, b, i.iid) ⟨i.interaction_type, i.timestamp, i.metadata⟩)
          (b, a, i.iid) ⟨i.interaction_type, i.timestamp, i.metadata⟩ := by
  unfold perceive_signal
  rw [if_pos hs, hp]
  show (add_edge (add_edge (perceiveNodes es m [a, b]) a b i.iid _) b a i.iid _).edges = _
  show addEdges (addEdges (perceiveNodes es m [a, b]).edges _ _) _ _ = _
  rw [perceiveNodes_edges]

lemma perceive_signal_edges_nonbinary (es : List Entity) (selfId : EntityId)
    (m : RealityModel) (i : Interaction)
    (hlen : 2 < i.participants.length) (hs : selfId ∈ i.participants) :
    (perceive_signal es selfId m i).edges = m.edges := by
  unfold perceive_signal
  rw [if_pos hs]
  rcases hl : i.participants with _ | ⟨p1, _ | ⟨p2, _ | ⟨p3, rest⟩⟩⟩
  · rw [hl] at hlen; simp at hlen
  · rw [hl] at hlen; simp at hlen
  · rw [hl] at hlen; simp at hlen
  · show (perceiveNodes es m (p1 :: p2 :: p3 :: rest)).edges = m.edges
    exact perceiveNodes_edges es _ m

lemma addEdges_of_not_mem (l : List ((EntityId × EntityId × InteractionId) × EdgeData))
    (k : EntityId × EntityId × InteractionId) (d : EdgeData)
    (h : ∀ p ∈ l, p.1 ≠ k) : addEdges l k d = l ++ [(k, d)] := by
  induction l with
  | nil => rfl
  | cons p rest ih =>
    have hp : p.1 ≠ k := h p (List.mem_cons_self _ _)
    unfold addEdges
    rw [if_neg hp, ih (fun q hq => h q (List.mem_cons_of_mem _ hq))]
    rfl

lemma find?_addEdges_self (l : List ((EntityId × EntityId × InteractionId) × EdgeData))
    (k : EntityId × EntityId × InteractionId) (d : EdgeData) :
    (addEdges l k d).find? (fun p => decide (p.1 = k)) = some (k, d) := by
  induction l with
  | nil => simp [addEdges, List.find?]
  | cons p rest ih =>
    by_cases hp : p.1 = k
    · simp [addEdges, hp, List.find?]
    · simp only [addEdges, if_neg hp, List.find?, hp, decide_eq_true_eq, if_neg]
      simpa [List.find?, hp] using ih

lemma find?_addEdges_other (l : List ((EntityId × EntityId × InteractionId) × EdgeData))
    (k k' : EntityId × EntityId × InteractionId) (d : EdgeData) (h : k' ≠ k) :
    (addEdges l k d).find? (fun p => decide (p.1 = k'))
      = l.find? (fun p => decide (p.1 = k')) := by
  induction l with
  | nil => simp [addEdges, List.find?, Ne.symm h]
  | cons p rest ih =>
    by_cases hp : p.1 = k
    · have hpk : ¬ p.1 = k' := fun hh => h (by rw [← hh]; exact hp)
      simp [addEdges, hp, List.find?, Ne.symm h, hpk]
    · by_cases hpk : p.1 = k'
      · simp [addEdges, hp, List.find?, hpk, h]
      · simp only [addEdges, if_neg hp, List.find?, hpk, decide_eq_true_eq, if_neg]
        simpa [List.find?, hpk] using ih

lemma addEdges_of_find?_self (l : List ((EntityId × EntityId × InteractionId) × EdgeData))
    (k : EntityId × EntityId × InteractionId) (d : EdgeData)
    (h : l.find? (fun p => decide (p.1 = k)) = some (k, d)) : addEdges l k d = l := by
  induction l with
  | nil => simp [List.find?] at h
  | cons p rest ih =>
    by_cases hp : p.1 = k
    · rw [show List.find? (fun q => decide (q.1 = k)) (p :: rest) = some p from by
        simp [List.find?, hp]] at h
      have hpd : p = (k, d) := Option.some.inj h
      unfold addEdges
      rw [if_pos hp, hpd]
    · rw [show List.find? (fun q => decide (q.1 = k)) (p :: rest)
          = List.find? (fun q => decide (q.1 = k)) rest from by simp [List.find?, hp]] at h
      unfold addEdges
      rw [if_neg hp, ih h]

lemma mem_ids_perceiveNodes (es : List Entity) (ps : List EntityId) (m : RealityModel)
    (nid : EntityId) (h : nid ∈ (perceiveNodes es m ps).nodes.map Prod.fst) :
    nid ∈ m.nodes.map Prod.fst ∨ nid ∈ ps := by
  induction ps generalizing m with
  | nil => exact Or.inl h
  | cons p ps ih =>
    unfold perceiveNodes at h
    rw [List.foldl_cons] at h
    cases hf : findEntity es p with
    | none =>
      rw [hf] at h
      rcases ih m h with h2 | h2
      · exact Or.inl h2
      · exact Or.inr (List.mem_cons_of_mem _ h2)
    | some e =>
      rw [hf] at h
      rcases ih (upsertNode m e) h with h2 | h2
      · rcases mem_upsertNodes_ids m.nodes e nid h2 with h3 | h3
        · exact Or.inl h3
        · exact Or.inr (by rw [h3, findEntity_eid es p e hf]; exact List.mem_cons_self _ _)
      · exact Or.inr (List.mem_cons_of_mem _ h2)

lemma mem_ids_perceive_signal (es : List Entity) (selfId : EntityId) (m : RealityModel)
    (i : Interaction) (nid : EntityId)
    (h : nid ∈ (perceive_signal es selfId m i).nodes.map Prod.fst) :
    nid ∈ m.nodes.map Prod.fst ∨ (selfId ∈ i.participants ∧ nid ∈ i.participants) := by
  by_cases hs : selfId ∈ i.participants
  · rw [show (perceive_signal es selfId m i).nodes = (perceiveNodes es m i.participants).nodes
      from perceive_signal_nodes es selfId m i hs] at h
    rcases mem_ids_perceiveNodes es i.participants m nid h with h2 | h2
    · exact Or.inl h2
    · exact Or.inr ⟨hs, h2⟩
  · rw [perceive_signal_not_participant es selfId m i hs] at h
    exact Or.inl h

lemma mem_ids_foldPerceive (es : List Entity) (selfId : EntityId)
    (ints : List Interaction) (m : RealityModel) (nid : EntityId)
    (h : nid ∈ ((ints.foldl (fun m2 i => perceive_signal es selfId m2 i) m).nodes.map
        Prod.fst)) :
    nid ∈ m.nodes.map Prod.fst
      ∨ ∃ i ∈ ints, selfId ∈ i.participants ∧ nid ∈ i.participants := by
  induction ints generalizing m with
  | nil => exact Or.inl h
  | cons i ints ih =>
    rw [List.foldl_cons] at h
    rcases ih (perceive_signal es selfId m i) h with h2 | h2
    · rcases mem_ids_perceive_signal es selfId m i nid h2 with h3 | h3
      · exact Or.inl h3
      · exact Or.inr ⟨i, List.mem_cons_self _ _, h3⟩
    · obtain ⟨j, hj, hj2⟩ := h2
      exact Or.inr ⟨j, List.mem_cons_of_mem _ hj, hj2⟩

/-- C5: perceive_signal leaves the reality model exactly unchanged on any
interaction the observer is not a participant of; consequently an observer
that has perceived any sequence of interactions starting from the empty
model holds nodes only for entities that share some perceived interaction
with the observer itself. -/
theorem observer_perceives_only_own_spec :
    (∀ (es : List Entity) (selfId : EntityId) (m : RealityModel) (i : Interaction),
       selfId ∉ i.participants → perceive_signal es selfId m i = m)
    ∧ (∀ (es : List Entity) (selfId : EntityId) (ints : List Interaction) (nid : EntityId),
       nid ∈ ((ints.foldl (fun m2 i => perceive_signal es selfId m2 i)
           RealityModel.empty).nodes.map Prod.fst) →
       ∃ i ∈ ints, selfId ∈ i.participants ∧ nid ∈ i.participants) := by
  constructor
  · exact perceive_signal_not_participant
  · intro es selfId ints nid h
    rcases mem_ids_foldPerceive es selfId ints RealityModel.empty nid h with h2 | h2
    · simp [RealityModel.empty] at h2
    · exact h2

/-- Witness for observer_perceives_only_own_spec: a non-participant
observer id 9 leaves the model unchanged, and observer 0 acquires node 1
only from an interaction both participate in. -/
theorem observer_perceives_only_own_spec_witness :
    ((9 : EntityId) ∉ ([0, 1] : List EntityId)
      ∧ perceive_signal rosterC7 9 RealityModel.empty ⟨101, 0, [0, 1], "type_A", []⟩
          = RealityModel.empty)
    ∧ ((1 : EntityId) ∈ (([⟨101, 0, [0, 1], "type_A", []⟩] :
          List Interaction).foldl (fun m2 i => perceive_signal rosterC7 0 m2 i)
            RealityModel.empty).nodes.map Prod.fst
      ∧ ∃ i ∈ ([⟨101, 0, [0, 1], "type_A", []⟩] : List Interaction),
          (0 : EntityId) ∈ i.participants ∧ (1 : EntityId) ∈ i.participants) :=
  ⟨⟨by decide,
    observer_perceives_only_own_spec.1 rosterC7 9 RealityModel.empty
      ⟨101, 0, [0, 1], "type_A", []⟩ (by decide)⟩,
   ⟨by decide,
    observer_perceives_only_own_spec.2 rosterC7 0
      [⟨101, 0, [0, 1], "type_A", []⟩] 1 (by decide)⟩⟩

/-- C6: when an observer perceives a qualifying interaction with exactly
two distinct participants whose keyed edges are not yet present, exactly
one directed edge in each direction is appended, each keyed by the
interaction's own id and carrying its type, timestamp and metadata; a
qualifying interaction with more than two participants changes no edges
yet upserts a node for every roster-resolvable participant. -/
theorem perceive_binary_edges_spec :
    (∀ (es : List Entity) (selfId : EntityId) (m : RealityModel) (i : Interaction)
        (a b : EntityId),
      i.participants = [a, b] → a ≠ b → selfId ∈ i.participants →
      (∀ p ∈ m.edges, p.1 ≠ (a, b, i.iid)) → (∀ p ∈ m.edges, p.1 ≠ (b, a, i.iid)) →
      (perceive_signal es selfId m i).edges
        = m.edges ++ [((a, b, i.iid), ⟨i.interaction_type, i.timestamp, i.metadata⟩),
                      ((b, a, i.iid), ⟨i.interaction_type, i.timestamp, i.metadata⟩)])
    ∧ (∀ (es : List Entity) (selfId : EntityId) (m : RealityModel) (i : Interaction),
        2 < i.participants.length → selfId ∈ i.participants →
        (perceive_signal es selfId m i).edges = m.edges
        ∧ ∀ pid ∈ i.participants, ∀ e : Entity, findEntity es pid = some e →
            (lookupNode (perceive_signal es selfId m i) pid).isSome) := by
  constructor
  · intro es selfId m i a b hp hab hs h1 h2
    rw [perceive_signal_edges_binary es selfId m i a b hp hs]
    rw [addEdges_of_not_mem m.edges _ _ h1]
    have hk : ((b, a, i.iid) : EntityId × EntityId × InteractionId) ≠ (a, b, i.iid) := by
      intro hh
      exact hab (congrArg (fun t => t.2.1) hh)
    rw [addEdges_of_not_mem _ _ _ ?_]
    · rw [List.append_assoc]
      rfl
    · intro p hpmem
      rcases List.mem_append.mp hpmem with hm | hm
      · exact h2 p hm
      · rw [List.mem_singleton.mp hm]
        exact Ne.symm hk
  · intro es selfId m i hlen hs
    refine ⟨perceive_signal_edges_nonbinary es selfId m i hlen hs, ?_⟩
    intro pid hpid e he
    rw [perceive_signal_lookupNode es selfId m i pid hs,
      lookupNode_perceiveNodes_mem es i.participants m pid e hpid he]
    rfl

/-- Witness for perceive_binary_edges_spec: the binary part at a fresh
interaction over the empty model, the wide part at a three-participant
interaction. -/
theorem perceive_binary_edges_spec_witness :
    (perceive_signal rosterC7 0 RealityModel.empty ⟨101, 0, [0, 1], "type_A", []⟩).edges
        = [(((0 : EntityId), (1 : EntityId), (101 : InteractionId)),
            ⟨"type_A", 0, []⟩),
           (((1 : EntityId), (0 : EntityId), (101 : InteractionId)),
            ⟨"type_A", 0, []⟩)]
    ∧ ((perceive_signal rosterC7 0 RealityModel.empty
          ⟨107, 0, [0, 1, 2], "tri", []⟩).edges = []
      ∧ (lookupNode (perceive_signal rosterC7 0 RealityModel.empty
          ⟨107, 0, [0, 1, 2], "tri", []⟩) 1).isSome) :=
  ⟨perceive_binary_edges_spec.1 rosterC7 0 RealityModel.empty
      ⟨101, 0, [0, 1], "type_A", []⟩ 0 1 rfl (by decide) (by decide)
      (by intro p hp; simp [RealityModel.empty] at hp)
      (by intro p hp; simp [RealityModel.empty] at hp),
   ⟨(perceive_binary_edges_spec.2 rosterC7 0 RealityModel.empty
      ⟨107, 0, [0, 1, 2], "tri", []⟩ (by decide) (by decide)).1,
    (perceive_binary_edges_spec.2 rosterC7 0 RealityModel.empty
      ⟨107, 0, [0, 1, 2], "tri", []⟩ (by decide) (by decide)).2 1 (by decide) oe1 rfl⟩⟩

/-- C8: re-perceiving the same binary interaction leaves the edge list of
the reality model exactly as after the first perception (the keyed edge
pair is refreshed in place, never duplicated), while each participant
node's stored properties and local time are refreshed from the current
roster state and its stored scale is kept from the first perception. -/
theorem perceive_idempotent_spec :
    (∀ (es1 es2 : List Entity) (selfId : EntityId) (m : RealityModel) (i : Interaction)
        (a b : EntityId),
      i.participants = [a, b] → selfId ∈ i.participants →
      (perceive_signal es2 selfId (perceive_signal es1 selfId m i) i).edges
        = (perceive_signal es1 selfId m i).edges)
    ∧ (∀ (es1 es2 : List Entity) (selfId : EntityId) (m : RealityModel) (i : Interaction)
        (pid : EntityId) (e : Entity) (nd : NodeData),
        selfId ∈ i.participants → pid ∈ i.participants →
        findEntity es2 pid = some e →
        lookupNode (perceive_signal es1 selfId m i) pid = some nd →
        lookupNode (perceive_signal es2 selfId (perceive_signal es1 selfId m i) i) pid
          = some ⟨e.properties, nd.scale, e.local_time⟩) := by
  constructor
  · intro es1 es2 selfId m i a b hp hs
    have hd := perceive_signal_edges_binary es1 selfId m i a b hp hs
    have l2 : (perceive_signal es1 selfId m i).edges.find?
        (fun p => decide (p.1 = ((b, a, i.iid) : EntityId × EntityId × InteractionId)))
        = some ((b, a, i.iid), ⟨i.interaction_type, i.timestamp, i.metadata⟩) := by
      rw [hd]
      exact find?_addEdges_self ..
    have l1 : (perceive_signal es1 selfId m i).edges.find?
        (fun p => decide (p.1 = ((a, b, i.iid) : EntityId × EntityId × InteractionId)))
        = some ((a, b, i.iid), ⟨i.interaction_type, i.timestamp, i.metadata⟩) := by
      rw [hd]
      by_cases hk : ((a, b, i.iid) : EntityId × EntityId × InteractionId) = (b, a, i.iid)
      · rw [hk]
        exact find?_addEdges_self ..
      · rw [find?_addEdges_other _ _ _ _ hk]
        exact find?_addEdges_self ..
    rw [perceive_signal_edges_binary es2 selfId (perceive_signal es1 selfId m i) i a b hp hs]
    rw [addEdges_of_find?_self _ _ _ l1, addEdges_of_find?_self _ _ _ l2]
  · intro es1 es2 selfId m i pid e nd hs hpid he hnd
    rw [perceive_signal_lookupNode es2 selfId (perceive_signal es1 selfId m i) i pid hs,
      lookupNode_perceiveNodes_mem es2 i.participants (perceive_signal es1 selfId m i)
        pid e hpid he, hnd]

/-- Witness for perceive_idempotent_spec: the interaction with id 101
between the observer 0 and entity 1, perceived twice from the empty
model over the concrete roster. -/
theorem perceive_idempotent_spec_witness :
    ((perceive_signal rosterC7 0
        (perceive_signal rosterC7 0 RealityModel.empty ⟨101, 0, [0, 1], "type_A", []⟩)
        ⟨101, 0, [0, 1], "type_A", []⟩).edges
      = (perceive_signal rosterC7 0 RealityModel.empty
          ⟨101, 0, [0, 1], "type_A", []⟩).edges)
    ∧ (lookupNode (perceive_signal rosterC7 0
          (perceive_signal rosterC7 0 RealityModel.empty ⟨101, 0, [0, 1], "type_A", []⟩)
          ⟨101, 0, [0, 1], "type_A", []⟩) 1
        = some ⟨oe1.properties, (0 : ℚ), oe1.local_time⟩) :=
  ⟨perceive_idempotent_spec.1 rosterC7 rosterC7 0 RealityModel.empty
      ⟨101, 0, [0, 1], "type_A", []⟩ 0 1 rfl (by decide),
   perceive_idempotent_spec.2 rosterC7 rosterC7 0 RealityModel.empty
      ⟨101, 0, [0, 1], "type_A", []⟩ 1 oe1 ⟨oe1.properties, (0 : ℚ), oe1.local_time⟩
      (by decide) (by decide) rfl rfl⟩

lemma pget_single_self (k : String) (v : Value) : pget [(k, v)] k = some v := by
  simp [pget]

lemma mem_groupStep (fI : Nat → InteractionId) (fG : Nat → String) (ts : Nat)
    (es : List Entity) (thr : Nat) (acc : List Interaction)
    (pc : (EntityId × EntityId) × Nat) (i : Interaction)
    (h : i ∈ groupStep fI fG ts es thr acc pc) :
    i ∈ acc ∨ (i.interaction_type = "group_formed"
      ∧ ∃ g, pget i.metadata "group_id" = some (.str g)) := by
  unfold groupStep at h
  split at h
  · split at h
    · split at h
      · rcases List.mem_append.mp h with h2 | h2
        · exact Or.inl h2
        · rw [List.mem_singleton.mp h2]
          exact Or.inr ⟨rfl, _, pget_single_self _ _⟩
      · split at h
        · rcases List.mem_append.mp h with h2 | h2
          · exact Or.inl h2
          · rw [List.mem_singleton.mp h2]
            exact Or.inr ⟨rfl, _, pget_single_self _ _⟩
        · exact Or.inl h
    · exact Or.inl h
  · exact Or.inl h

lemma groupStep_map_participants (fI : Nat → InteractionId) (fG : Nat → String) (ts : Nat)
    (es : List Entity) (thr : Nat) (acc : List Interaction)
    (pc : (EntityId × EntityId) × Nat) :
    (groupStep fI fG ts es thr acc pc).map (fun i => i.participants)
      = acc.map (fun i => i.participants)
        ++ if qualifiesPair es thr pc then [[pc.1.1, pc.1.2]] else [] := by
  unfold groupStep qualifiesPair
  by_cases h1 : thr ≤ pc.2
  · rw [if_pos h1]
    cases hf1 : findEntity es pc.1.1 with
    | none =>
      simp [hf1]
    | some e1 =>
      cases hf2 : findEntity es pc.1.2 with
      | none =>
        simp [hf1, hf2]
      | some e2 =>
        simp only [hf1, hf2]
        have he1 := findEntity_eid es pc.1.1 e1 hf1
        have he2 := findEntity_eid es pc.1.2 e2 hf2
        by_cases hb : (group_id_of e1).isNone ∧ (group_id_of e2).isNone
        · have hsome : (group_id_of e1).isSome = false := by
            rw [Option.isNone_iff_eq_none.mp hb.1]
            rfl
          simp [hb, h1, hsome, he1, he2]
        · rw [if_neg hb]
          by_cases hne : group_id_of e1 ≠ group_id_of e2
          · have hd : decide (group_id_of e1 = group_id_of e2) = false :=
              decide_eq_false hne
            simp [hne, h1, hd, he1, he2]
          · push_neg at hne
            have hs1 : (group_id_of e1).isSome = true := by
              rcases h2 : group_id_of e1 with _ | g
              · exact absurd ⟨by simp [h2], by simp [← hne, h2]⟩ hb
              · rfl
            have hs2 : ¬ group_id_of e2 = Option.none := by
              intro hg2
              exact hb ⟨by simp [hne, hg2], by simp [hg2]⟩
            simp [hne, h1, hs1, hs2]
  · rw [if_neg h1]
    have hd : decide (thr ≤ pc.2) = false := decide_eq_false h1
    simp [hd]

lemma group_formation_rule_aux (fI : Nat → InteractionId) (fG : Nat → String) (ts : Nat)
    (es : List Entity) (thr : Nat) (l : List ((EntityId × EntityId) × Nat))
    (acc : List Interaction) :
    (l.foldl (groupStep fI fG ts es thr) acc).map (fun i => i.participants)
      = acc.map (fun i => i.participants)
        ++ (l.filter (qualifiesPair es thr)).map (fun pc => [pc.1.1, pc.1.2]) := by
  induction l generalizing acc with
  | nil => simp
  | cons pc l ih =>
    rw [List.foldl_cons, ih, groupStep_map_participants]
    by_cases hq : qualifiesPair es thr pc
    · simp [hq, List.filter_cons]
    · simp [hq, List.filter_cons]

/-- Counterexample for C2: entities 1 and 2 have co-participated in exactly
one recorded binary interaction — each history is the single shared
interaction iAB — yet group_formation_rule at its default threshold 2
already emits a group_formed interaction for the pair, because the scan
counts the shared interaction once in each participant's history. -/
theorem group_formation_threshold_cex :
    entA.interaction_history = [iAB] ∧ entB.interaction_history = [iAB]
    ∧ iAB.participants = [entA.eid, entB.eid]
    ∧ interaction_counts [entA, entB] = [((1, 2), 2)]
    ∧ (group_formation_rule (fun k => 60 + k) (fun _ => "freshG") 0 [entA, entB] 2).map
        (fun i => (i.interaction_type, i.participants)) = [("group_formed", [1, 2])] :=
  ⟨rfl, rfl, rfl, by decide, by decide⟩

/-- C2 (amended): group_formation_rule counts, per unordered pair, the
occurrences of their binary co-interactions across every entity's history
(an interaction recorded into both participants' histories counts twice),
and emits one group_formed interaction exactly for each counted pair whose
occurrence count reaches the threshold, whose entities resolve in the
roster, and whose entities do not already share one present group id;
every emitted interaction carries a non-null string group id; and on two
entities with two engine-recorded co-interactions (count four) the rule
emits for the pair, after which engine processing leaves both entities
with equal, non-null group_id values. -/
theorem group_formation_rule_spec_amended :
    (∀ (fI : Nat → InteractionId) (fG : Nat → String) (ts : Nat) (es : List Entity)
        (thr : Nat) (i : Interaction), i ∈ group_formation_rule fI fG ts es thr →
        i.interaction_type = "group_formed"
          ∧ ∃ g, pget i.metadata "group_id" = some (.str g))
    ∧ (∀ (fI : Nat → InteractionId) (fG : Nat → String) (ts : Nat) (es : List Entity)
        (thr : Nat),
        (group_formation_rule fI fG ts es thr).map (fun i => i.participants)
          = ((interaction_counts es).filter (qualifiesPair es thr)).map
              (fun pc => [pc.1.1, pc.1.2]))
    ∧ groupRunCD.map (fun i => (i.interaction_type, i.participants))
        = [("group_formed", [3, 4])]
    ∧ (groupRunCD.foldl processInteraction [entC, entD]).map
        (fun e => pget e.properties "group_id")
        = [some (.str "gNew"), some (.str "gNew")] := by
  refine ⟨?_, ?_, by decide, by decide⟩
  · intro fI fG ts es thr i h
    unfold group_formation_rule at h
    generalize hl : interaction_counts es = l at h
    clear hl
    induction l using List.reverseRecOn with
    | nil => simp at h
    | append_singleton l pc ih =>
      rw [List.foldl_append, List.foldl_cons, List.foldl_nil] at h
      rcases mem_groupStep fI fG ts es thr _ pc i h with h2 | h2
      · exact ih h2
      · exact h2
  · intro fI fG ts es thr
    unfold group_formation_rule
    rw [group_formation_rule_aux]
    simp

/-- Witness for group_formation_rule_spec_amended: the interaction emitted
for the pair of entC and entD is group_formed and carries the group id. -/
theorem group_formation_rule_spec_amended_witness :
    ((⟨80, 0, [3, 4], "group_formed", [("group_id", .str "gNew")]⟩ : Interaction)
        ∈ group_formation_rule (fun k => 80 + k) (fun _ => "gNew") 0 [entC, entD] 2)
    ∧ ((⟨80, 0, [3, 4], "group_formed", [("group_id", .str "gNew")]⟩ :
          Interaction).interaction_type = "group_formed"
      ∧ ∃ g, pget (⟨80, 0, [3, 4], "group_formed", [("group_id", .str "gNew")]⟩ :
          Interaction).metadata "group_id" = some (.str g)) :=
  ⟨by decide,
   group_formation_rule_spec_amended.1 (fun k => 80 + k) (fun _ => "gNew") 0
     [entC, entD] 2 ⟨80, 0, [3, 4], "group_formed", [("group_id", .str "gNew")]⟩
     (by decide)⟩

/-- Counterexample for C7: the observer itself is upserted as a node of its
own reality model, so perceiving six binary interactions across five
distinct other entities yields six perceived entities, not five. -/
theorem find_patterns_entity_count_cex :
    (find_patterns modelC7).num_perceived_entities ≠ 5
    ∧ (find_patterns modelC7).num_perceived_entities = 6 := by
  constructor
  · decide
  · decide

/-- C7 (amended): find_patterns on the model built by an observer
perceiving six binary interactions, each including the observer, across
five distinct other entities reports six perceived entities (the five
others plus the observer's own node) and twelve perceived relationships
(two directed edges per binary interaction), and its perceived_groups maps
a group value to its member count exactly for group values carried by more
than one perceived node. -/
theorem find_patterns_spec_amended :
    find_patterns modelC7
      = ⟨6, 12, [(.str "g1", 2), (.str "g2", 2)]⟩
    ∧ (∀ (m : RealityModel) (v : Value) (c : Nat),
        (v, c) ∈ (find_patterns m).perceived_groups
          ↔ (v, c) ∈ groupCounts m ∧ 1 < c) := by
  constructor
  · decide
  · intro m v c
    simp [find_patterns, List.mem_filter]

end UniverseModel
